import Mathlib

/-!
# VirtuCast — verification of the core specification claims

Shallow embedding of the VirtuCast repository's core Python modules:

* `ue_project/VirtuCast/Scripts/virtu_render_queue.py` — command-line
  argument extraction, soft-reference normalization, resolution parsing,
  the Movie Render Queue `main` driver, and the tick-callback completion
  protocol;
* `ue_project/VirtuCast/Content/Python/init_unreal.py` — the startup
  hook, the truthy helper, the screen-video apply / pick flows and the
  persisted side file;
* `ue_project/Scripts/scene_builder.py` — the tagged studio catalogue,
  idempotent rebuild, and the yaw-towards camera aiming rule.

Strings are modelled as `List Char` (ASCII fragment of Python's `str`);
machine floats that only ever hold whole-second timestamps are modelled
as `Nat`; Python functions that may raise are modelled as total Lean
functions returning `Option`/explicit error fields.
-/

namespace VirtuCast

/-! ## Basic character/string helpers -/

/-- Python's `\s` character class restricted to ASCII
(space, tab, newline, carriage return, vertical tab, form feed). -/
def isPySpace (c : Char) : Bool :=
  c == ' ' || c == '\t' || c == '\n' || c == '\r' || c == '\x0b' || c == '\x0c'

/-- Python `str.strip()`: remove leading and trailing whitespace. -/
def pyStrip (s : List Char) : List Char :=
  (s.dropWhile isPySpace).rdropWhile isPySpace

/-- Match a literal prefix; on success return the remainder.
Used to embed literal fragments of the regexes in the source. -/
def stripPrefixList : List Char → List Char → Option (List Char)
  | [], cs => some cs
  | _ :: _, [] => none
  | p :: ps, c :: cs => if c = p then stripPrefixList ps cs else none

/-! ## Host Command-Line Bridge

`_get_arg` in `virtu_render_queue.py` and (identically) in
`init_unreal.py`:

    pattern = rf"(?:^|\s)-{re.escape(name)}=(?:\"([^\"]*)\"|([^\s]+))"
    m = re.search(pattern, cmdline)
    if not m: return None
    return m.group(1) or m.group(2)

The regex alternation is embedded directly: the quoted alternative
`"([^"]*)"` matches when an opening quote is immediately present and a
closing quote occurs later (capture group 1 = the chars between); the
bare alternative `([^\s]+)` captures the maximal nonempty run of
non-whitespace characters (capture group 2).  `re.search` tries match
positions left to right; at each position the zero-width `^` branch is
tried (position 0 only) before the `\s` branch, which consumes one
whitespace character. -/

/-- The pair of regex capture groups `(group 1, group 2)`. -/
abbrev ArgGroups := Option (List Char) × Option (List Char)

/-- The `([^\s]+)` alternative: maximal nonempty run of non-whitespace. -/
def matchBare (cs : List Char) : Option ArgGroups :=
  let v := cs.takeWhile (fun c => !isPySpace c)
  if v.isEmpty then none else some (none, some v)

/-- The value part `(?:"([^"]*)"|([^\s]+))` of the `_get_arg` regex. -/
def matchValue (cs : List Char) : Option ArgGroups :=
  match cs with
  | [] => none
  | c :: rest =>
    if c = '"' then
      if '"' ∈ rest then some (some (rest.takeWhile (fun x => x != '"')), none)
      else matchBare (c :: rest)
    else matchBare (c :: rest)

/-- Anchored attempt of `-name=(?:"([^"]*)"|([^\s]+))` at the head of `cs`. -/
def matchToken (name : List Char) (cs : List Char) : Option ArgGroups :=
  match cs with
  | [] => none
  | c :: rest =>
    if c = '-' then
      match stripPrefixList (name ++ ['=']) rest with
      | some after => matchValue after
      | none => none
    else none

/-- The `\s`-prefixed match attempts of `re.search`, at positions `≥ 1`
relative to the given suffix: at each position, if the current character
is whitespace, try the token match right after it, else move on. -/
def searchArgAux (name : List Char) : List Char → Option ArgGroups
  | [] => none
  | c :: rest =>
    (if isPySpace c then matchToken name rest else none) <|> searchArgAux name rest

/-- `re.search` of the `_get_arg` pattern: the `^`-anchored attempt at
position 0, then the `\s`-prefixed attempts left to right. -/
def searchArg (name cs : List Char) : Option ArgGroups :=
  matchToken name cs <|> searchArgAux name cs

/-- `_get_arg(cmdline, name)`.  Mirrors `m.group(1) or m.group(2)`:
an *empty* group-1 capture is falsy in Python, so `-Name=""` falls
through to group 2 (which is `None` in that case). -/
def getArg (cmdline name : List Char) : Option (List Char) :=
  match searchArg name cmdline with
  | none => none
  | some (g1, g2) =>
    match g1 with
    | some v => if v.isEmpty then g2 else some v
    | none => g2

/-- Python truthiness of an optional string: `None` and `""` are falsy. -/
def pyTruthyStr (o : Option (List Char)) : Bool :=
  match o with
  | none => false
  | some s => !s.isEmpty

/-- Python `opt or default` on an optional string result. -/
def pyOrStr (o : Option (List Char)) (d : List Char) : List Char :=
  match o with
  | none => d
  | some s => if s.isEmpty then d else s

/-- `_truthy` in `init_unreal.py`: strip, lower-case, and test membership
in `{"1", "true", "yes", "y", "on"}`; `None` is false. -/
def truthy (v : Option (List Char)) : Bool :=
  match v with
  | none => false
  | some s =>
    let t := (pyStrip s).map Char.toLower
    t == "1".toList || t == "true".toList || t == "yes".toList ||
      t == "y".toList || t == "on".toList

/-! ### Well-formed command lines

A well-formed command line is a rendering of named arguments in the
grammar the spec states for the bridge: tokens `-Name=value` (bare:
nonempty, no whitespace) or `-Name="v v"` (quoted: nonempty, may contain
whitespace), separated by single spaces, with distinct names.  Values
contain no `"` (a quote inside a value has no escape in this grammar)
and no whitespace-followed-by-dash (such a value would embed what reads
as another `-Name=` flag, making extraction by that other name
ambiguous). -/

/-- One named argument together with its rendering style. -/
structure ArgTok where
  name : List Char
  value : List Char
  quoted : Bool
  deriving DecidableEq

/-- A usable argument name: nonempty, no whitespace, no `=`, no `"`. -/
def ValidName (n : List Char) : Prop :=
  n ≠ [] ∧ ∀ c ∈ n, isPySpace c = false ∧ c ≠ '=' ∧ c ≠ '"'

/-- No whitespace character immediately followed by `-`. -/
def noSpaceDash : List Char → Bool
  | a :: b :: rest => !(isPySpace a && b == '-') && noSpaceDash (b :: rest)
  | _ => true

/-- A renderable argument value: nonempty, quote-free, without an
embedded whitespace-dash, and whitespace-free when rendered bare. -/
def ValidValue (t : ArgTok) : Prop :=
  t.value ≠ [] ∧ ('"' : Char) ∉ t.value ∧ noSpaceDash t.value = true ∧
    (t.quoted = false → ∀ c ∈ t.value, isPySpace c = false)

/-- Render one token: `-name=value` or `-name="value"`. -/
def renderTok (t : ArgTok) : List Char :=
  '-' :: (t.name ++ '=' :: (if t.quoted then '"' :: (t.value ++ ['"']) else t.value))

/-- Render a whole command line, tokens separated by single spaces. -/
def renderArgs : List ArgTok → List Char
  | [] => []
  | [t] => renderTok t
  | t :: ts => renderTok t ++ ' ' :: renderArgs ts

/-- A well-formed argument list: valid names and values, names distinct. -/
def WfArgs (ts : List ArgTok) : Prop :=
  (∀ t ∈ ts, ValidName t.name ∧ ValidValue t) ∧ (ts.map ArgTok.name).Nodup

instance (n : List Char) : Decidable (ValidName n) := by
  unfold ValidName
  infer_instance

instance (t : ArgTok) : Decidable (ValidValue t) := by
  unfold ValidValue
  infer_instance

instance (ts : List ArgTok) : Decidable (WfArgs ts) := by
  unfold WfArgs
  infer_instance

/-- Interior soundness of a character block for the search scan: every
whitespace character inside it is immediately followed (still inside the
block) by a non-`-` character, so no `\s`-triggered match attempt can
start inside the block. -/
def GoodInt : List Char → Prop
  | [] => True
  | c :: rest => (isPySpace c = true → ∃ d r, rest = d :: r ∧ d ≠ '-') ∧ GoodInt rest

/-! ## Soft-reference normalization and resolution parsing -/

/-- Scan for the regex `'(/Game/[^']+)'` (first match, positions left to
right): a quote, the literal `/Game/`, at least one non-quote character,
then a closing quote; the capture is `/Game/` plus the run. -/
def extractObjectPathAux : List Char → Option (List Char)
  | [] => none
  | c :: rest =>
    (if c = '\'' then
      match stripPrefixList "/Game/".toList rest with
      | some r2 =>
        let run := r2.takeWhile (fun x => x != '\'')
        if !run.isEmpty && '\'' ∈ r2.drop run.length then
          some ("/Game/".toList ++ run)
        else none
      | none => none
    else none) <|> extractObjectPathAux rest

/-- Python `str.strip('"')`: remove leading and trailing `"` characters. -/
def stripQuotes (s : List Char) : List Char :=
  (s.dropWhile (fun c => c == '"')).rdropWhile (fun c => c == '"')

/-- `_extract_object_path`: `/Script/X.Y'/Game/Path.Asset'` becomes
`/Game/Path.Asset`; anything without such a quoted `/Game/` fragment is
returned stripped of whitespace and surrounding double quotes. -/
def extractObjectPath (softRef : List Char) : List Char :=
  match extractObjectPathAux softRef with
  | some g => g
  | none => stripQuotes (pyStrip softRef)

/-- `_extract_package_path`: `obj_path.split(".", 1)[0]` when the path
contains a dot, i.e. everything before the first `.`; otherwise the path
unchanged. -/
def extractPackagePath (objPath : List Char) : List Char :=
  if '.' ∈ objPath then objPath.takeWhile (fun c => c != '.') else objPath

/-- Numeric value of a digit run (most significant first). -/
def digitsToNat (ds : List Char) : Nat :=
  ds.foldl (fun acc c => acc * 10 + (c.toNat - '0'.toNat)) 0

/-- `_parse_resolution`: `re.match(r"^(\d+)x(\d+)$", res.strip())`; on
failure the default `(1920, 1080)`.  The anchored regex succeeds exactly
when the stripped string is a nonempty digit run, an `x`, and a nonempty
digit run. -/
def parseResolution (res : List Char) : Nat × Nat :=
  match (pyStrip res).dropWhile Char.isDigit with
  | 'x' :: rest =>
    if !((pyStrip res).takeWhile Char.isDigit).isEmpty && !rest.isEmpty &&
        rest.all Char.isDigit then
      (digitsToNat ((pyStrip res).takeWhile Char.isDigit), digitsToNat rest)
    else (1920, 1080)
  | _ => (1920, 1080)

/-! ## Python `int(...)` (as applied to the fps argument)

`int(str)` strips whitespace, accepts an optional sign, then digits with
single `_` separators allowed between digits; anything else raises
`ValueError` (modelled as `none`). -/

/-- Digit run with `_` separators, after a first digit has been read. -/
def pyIntDigitsAux : List Char → Nat → Option Nat
  | [], acc => some acc
  | '_' :: c :: rest, acc =>
    if c.isDigit then pyIntDigitsAux rest (acc * 10 + (c.toNat - '0'.toNat)) else none
  | c :: rest, acc =>
    if c.isDigit then pyIntDigitsAux rest (acc * 10 + (c.toNat - '0'.toNat)) else none

/-- Unsigned part of `int(str)`: must start with a digit. -/
def pyIntDigits : List Char → Option Nat
  | [] => none
  | c :: rest => if c.isDigit then pyIntDigitsAux rest (c.toNat - '0'.toNat) else none

/-- `int(str)`, returning `none` where Python raises `ValueError`. -/
def pyInt (s : List Char) : Option Int :=
  match pyStrip s with
  | '+' :: rest => (pyIntDigits rest).map Int.ofNat
  | '-' :: rest => (pyIntDigits rest).map (fun n => -(n : Int))
  | rest => (pyIntDigits rest).map Int.ofNat

/-! ## Render Job Controller — `main` of `virtu_render_queue.py`

The host-engine mutations performed by `main` are recorded as an ordered
effect list; the configured Movie Render Queue job is recorded as a
`JobConfig`.  A raised `RuntimeError` is the `error` field; in the
missing-argument case it is raised before any effect is emitted. -/

/-- Observable side effects of `main`, in program order:
`os.makedirs`, `_load_map`, `queue.delete_all_jobs`,
`queue.allocate_new_job`, `render_queue_with_executor_instance`. -/
inductive RenderEffect where
  | makeDirs (dir : List Char)
  | loadMap (packagePath : List Char)
  | deleteAllJobs
  | allocateJob
  | startRender
  deriving DecidableEq

/-- The configuration placed on the allocated job by `main` and
`_ensure_png_output`. -/
structure JobConfig where
  map : List Char
  sequence : List Char
  outputDirectory : List Char
  resolution : Nat × Nat
  frameRate : Int
  fileNameFormat : List Char
  overrideExisting : Bool
  deriving DecidableEq

/-- Result of one run of `main`. -/
structure MainResult where
  error : Option (List Char)
  effects : List RenderEffect
  job : Option JobConfig
  deriving DecidableEq

def virtuCastMapArg : List Char := "VirtuCastMap".toList
def virtuCastSequenceArg : List Char := "VirtuCastSequence".toList
def virtuCastOutArg : List Char := "VirtuCastOut".toList
def virtuCastResArg : List Char := "VirtuCastRes".toList
def virtuCastFpsArg : List Char := "VirtuCastFps".toList

def missingArgsMsg : List Char :=
  "Missing required args. Need -VirtuCastMap, -VirtuCastSequence, -VirtuCastOut".toList

/-- `main()` of `virtu_render_queue.py` up to and including launching the
render (the subsequent tick-callback wait is modelled separately below). -/
def renderMain (cmdline : List Char) : MainResult :=
  let mapRef := getArg cmdline virtuCastMapArg
  let seqRef := getArg cmdline virtuCastSequenceArg
  let outRef := getArg cmdline virtuCastOutArg
  let res := pyOrStr (getArg cmdline virtuCastResArg) "1920x1080".toList
  let fpsStr := pyOrStr (getArg cmdline virtuCastFpsArg) "30".toList
  if !pyTruthyStr mapRef || !pyTruthyStr seqRef || !pyTruthyStr outRef then
    { error := some missingArgsMsg, effects := [], job := none }
  else
    let mapObj := extractObjectPath (mapRef.getD [])
    let seqObj := extractObjectPath (seqRef.getD [])
    let fps := (pyInt fpsStr).getD 30
    let outDir := outRef.getD []
    { error := none
      effects := [.makeDirs outDir, .loadMap (extractPackagePath mapObj),
        .deleteAllJobs, .allocateJob, .startRender]
      job := some
        { map := mapObj
          sequence := seqObj
          outputDirectory := outDir
          resolution := parseResolution res
          frameRate := fps
          fileNameFormat := "{sequence_name}.{frame_number}".toList
          overrideExisting := true } }

/-! ## Render Job Controller — completion await via the tick callback

State shared by `_on_finished`, `_tick_callback`, `_unregister_tick` and
`_quit_editor`.  Timestamps (`time.time()` floats holding whole seconds
in every comparison of interest) are modelled as `Nat`; `exitRequests`
counts calls to `_quit_editor`; `tickRegistered` records whether
`_unregister_tick` has been executed (the host may nevertheless invoke
the callback again before the deregistration takes effect, which is
modelled by simply applying `tickCallback` to such a state). -/
structure TickState where
  finished : Bool
  success : Bool
  startTime : Nat
  lastHeartbeat : Nat
  tickRegistered : Bool
  exitRequests : Nat
  heartbeats : Nat
  deriving DecidableEq

/-- `timeout_seconds = 60 * 60`. -/
def timeoutSeconds : Nat := 60 * 60

/-- `_on_finished`: the executor-finished delegate. -/
def onExecutorFinished (success : Bool) (s : TickState) : TickState :=
  { s with finished := true, success := success }

/-- `_tick_callback`: branch 1 — job finished → unregister, quit;
branch 2 — elapsed time beyond the timeout → unregister, quit;
branch 3 — ten seconds past the last heartbeat → log a heartbeat. -/
def tickCallback (now : Nat) (s : TickState) : TickState :=
  if s.finished then
    { s with tickRegistered := false, exitRequests := s.exitRequests + 1 }
  else if timeoutSeconds < now - s.startTime then
    { s with tickRegistered := false, exitRequests := s.exitRequests + 1 }
  else if 10 ≤ now - s.lastHeartbeat then
    { s with lastHeartbeat := now, heartbeats := s.heartbeats + 1 }
  else s

/-- A host tick loop that respects deregistration immediately: the
callback is invoked at the given timestamps only while it is still
registered. -/
def runTicks (s : TickState) : List Nat → TickState
  | [] => s
  | t :: ts => if s.tickRegistered then runTicks (tickCallback t s) ts else s

/-! ## Startup hook — `init_unreal.py`

Module-level mutable state (`_ALREADY_RAN`, `_MENU_REGISTERED`,
`_LAST_SCREEN_VIDEO`) and the persisted side file
`Saved/VirtuCast/last_screen_video.txt` are modelled explicitly; the
filesystem is modelled as the list of existing paths.  Paths are opaque
character lists (`Path.resolve`/`os.path.normpath` are identities on the
already-normalized paths the model manipulates). -/

/-- Observable effects of the startup hook `main()`. -/
inductive InitEffect where
  | registerMenu
  | runScript (path : List Char)
  | quitEditor
  deriving DecidableEq

/-- `_ALREADY_RAN` and `_MENU_REGISTERED`. -/
structure InitState where
  alreadyRan : Bool
  menuRegistered : Bool
  deriving DecidableEq

/-- Host environment for the startup hook. -/
structure InitEnv where
  cmdline : List Char
  toolMenusOk : Bool
  menuBuildOk : Bool
  projectDir : List Char
  existingFiles : List (List Char)
  deriving DecidableEq

def virtuCastAutoRenderArg : List Char := "VirtuCastAutoRender".toList
def virtuCastScriptArg : List Char := "VirtuCastScript".toList

/-- `_register_menu`: a no-op when already registered or when the
`ToolMenus` API is unavailable; sets `_MENU_REGISTERED` on success. -/
def registerMenuStep (env : InitEnv) (s : InitState) : InitState × List InitEffect :=
  if s.menuRegistered then (s, [])
  else if !env.toolMenusOk then (s, [])
  else if env.menuBuildOk then ({ s with menuRegistered := true }, [.registerMenu])
  else (s, [])

/-- `_default_script_path()`: `<project>/Scripts/virtu_render_queue.py`. -/
def defaultScriptPath (env : InitEnv) : List Char :=
  env.projectDir ++ "Scripts/virtu_render_queue.py".toList

/-- The script path chosen by `main`: the `-VirtuCastScript` argument if
given (relative arguments are resolved against the project directory),
else the default. -/
def resolveScriptPath (env : InitEnv) : List Char :=
  match getArg env.cmdline virtuCastScriptArg with
  | none => defaultScriptPath env
  | some p => if p.head? = some '/' || p.head? = some '\\' || ':' ∈ p.take 2
      then p else env.projectDir ++ p

/-- `main()` of `init_unreal.py`: return at once when `_ALREADY_RAN`;
always (re)register the menu; return when `-VirtuCastAutoRender` is not
truthy; otherwise set `_ALREADY_RAN` and run the render script
(`FileNotFoundError`/failure is caught: log and request editor exit). -/
def initMain (env : InitEnv) (s : InitState) : InitState × List InitEffect :=
  if s.alreadyRan then (s, [])
  else
    let r1 := registerMenuStep env s
    if !truthy (getArg env.cmdline virtuCastAutoRenderArg) then r1
    else
      let s2 := { r1.1 with alreadyRan := true }
      let sp := resolveScriptPath env
      if sp ∈ env.existingFiles then (s2, r1.2 ++ [.runScript sp])
      else (s2, r1.2 ++ [.quitEditor])

/-! ## Media Screen Subsystem — video apply flows

`_apply_screen_video_default` and `_pick_and_apply_screen_video` in
`init_unreal.py`, calling `apply_screen_video` of `scene_builder.py`.
The returned `Bool` is whether the apply ran to a successful completion
(file found, all four media assets created/loaded, material built, the
`VC_Screen` actor present). -/

/-- Environment of the media subsystem. -/
structure MediaEnv where
  cmdline : List Char
  existingFiles : List (List Char)
  contentDir : List Char
  mediaAssetsOk : Bool
  materialOk : Bool
  screenActorExists : Bool
  deriving DecidableEq

/-- `_LAST_SCREEN_VIDEO` and the contents of the persisted side file
`Saved/VirtuCast/last_screen_video.txt` (`none` = file absent). -/
structure MediaState where
  lastScreenVideo : Option (List Char)
  sideFile : Option (List Char)
  deriving DecidableEq

def virtuCastScreenVideoArg : List Char := "VirtuCastScreenVideo".toList

/-- `_load_last_video_path`: read the side file, strip, reject empty
contents and paths that no longer exist. -/
def loadLastVideoPath (env : MediaEnv) (s : MediaState) : Option (List Char) :=
  match s.sideFile with
  | none => none
  | some raw =>
    let v := pyStrip raw
    if v.isEmpty then none
    else if v ∈ env.existingFiles then some v
    else none

/-- The default video location `<Content>/Movies/screen.mp4`. -/
def defaultVideoPath (env : MediaEnv) : List Char :=
  env.contentDir ++ "Movies/screen.mp4".toList

/-- `apply_screen_video(video_path, autoplay, loop)` of
`scene_builder.py`: substitute the default path for a falsy argument,
abort if the file is missing, then create/reuse the media source, the
player, the texture and the screen material, and bind the material to
`VC_Screen`.  Returns whether the operation completed.  It never touches
the persisted side file. -/
def applyScreenVideo (env : MediaEnv) (videoPath : Option (List Char)) : Bool :=
  let p := match videoPath with
    | none => defaultVideoPath env
    | some q => if q.isEmpty then defaultVideoPath env else q
  if p ∉ env.existingFiles then false
  else if !env.mediaAssetsOk then false
  else if !env.materialOk then false
  else if !env.screenActorExists then false
  else true

/-- `_apply_screen_video_default`: fill `_LAST_SCREEN_VIDEO` from the
side file when unset, prefer the cached selection, then the
`-VirtuCastScreenVideo` command-line argument, then (inside
`apply_screen_video`) the default location. -/
def applyScreenVideoDefault (env : MediaEnv) (s : MediaState) : MediaState × Bool :=
  let cached := match s.lastScreenVideo with
    | none => loadLastVideoPath env s
    | some v => some v
  let s1 := { s with lastScreenVideo := cached }
  let external := match cached with
    | none => getArg env.cmdline virtuCastScreenVideoArg
    | some v => if v.isEmpty then getArg env.cmdline virtuCastScreenVideoArg else some v
  (s1, applyScreenVideo env external)

/-- `_pick_and_apply_screen_video`: when the file dialog returns a path,
cache it, write it to the side file, and run the default apply flow;
when the dialog is cancelled, do nothing. -/
def pickAndApplyScreenVideo (env : MediaEnv) (dialogResult : Option (List Char))
    (s : MediaState) : MediaState × Bool :=
  match dialogResult with
  | none => (s, false)
  | some p =>
    applyScreenVideoDefault env { s with lastScreenVideo := some p, sideFile := some p }

/-! ## Studio Layout Engine — `scene_builder.py`

The level is the ordered list of its actors; an actor is its label and
its tag list (world transforms are irrelevant to the rebuild claim and
elided).  Every actor spawned by the builder is routed through
`_label_actor`/`_tag_actor` and so carries the `VirtuCastStudio` marker
tag; whether a given catalogue entry spawns depends only on the engine
environment (asset/class availability), exactly as in the source, where
each `_spawn_*` helper loads its assets afresh and never consults the
level.  `_delete_previous` and actor spawning are modelled in their
normal-operation behavior (the destroy/spawn engine calls succeed or are
reported by the environment flags; the silent `except Exception: pass`
safety nets around a *failing* engine API are not modelled). -/

/-- `_STUDIO_TAG = "VirtuCastStudio"`. -/
def studioTag : List Char := "VirtuCastStudio".toList

/-- A level actor: label plus tag list. -/
structure SceneActor where
  label : List Char
  tags : List (List Char)
  deriving DecidableEq

/-- Engine environment of one build: which assets and classes resolve
and which spawn APIs work. -/
structure BuildEnv where
  planeOk : Bool
  cubeOk : Bool
  cylinderOk : Bool
  spawnMeshOk : Bool
  cameraClassOk : Bool
  spawnCameraOk : Bool
  rectLightOk : Bool
  spotLightOk : Bool
  pointLightOk : Bool
  spawnLightOk : Bool
  metahumanOk : Bool
  deriving DecidableEq

/-- A freshly spawned builder actor: labelled and carrying the marker
tag (`_label_actor` then `_tag_actor` on a fresh actor). -/
def mkStudioActor (label : List Char) : SceneActor :=
  { label := label, tags := [studioTag] }

/-- One catalogue entry: spawn the labelled actor iff its availability
condition holds (missing asset/class → skip with a warning). -/
def spawnIf (ok : Bool) (label : List Char) : Option SceneActor :=
  if ok then some (mkStudioActor label) else none

/-- Python `f"{i:+d}"`. -/
def pyPlusD (i : Int) : List Char :=
  ((if 0 ≤ i then "+" else "") ++ toString i).toList

/-- The spawn catalogue of `create_basic_studio`, in program order:
`_add_floor`; `_add_desk` (top, base, cylinder front, tablet);
`_add_backdrop_and_screen` (wall, nine vertical grid bars for
`i in range(-4, 5)`, six horizontal grid bars for `i in range(-2, 4)`,
the screen plane, three pairs of cross markers);
`_add_metahuman`; `_add_lighting` (key and fill prefer
`RectLight`/`SpotLight`/`PointLight`, rim prefers
`SpotLight`/`PointLight`); `_add_cameras` (wide, medium, close). -/
def studioCatalogue (env : BuildEnv) : List (Bool × List Char) :=
  let meshOk := env.spawnMeshOk
  let keyFillClassOk := env.rectLightOk || env.spotLightOk || env.pointLightOk
  let rimClassOk := env.spotLightOk || env.pointLightOk
  let camOk := env.cameraClassOk && env.spawnCameraOk
  [(env.planeOk && meshOk, "VC_Floor".toList),
   (env.cubeOk && meshOk, "VC_DeskTop".toList),
   (env.cubeOk && meshOk, "VC_DeskBase".toList),
   (env.cylinderOk && meshOk, "VC_DeskFront".toList),
   (env.cubeOk && meshOk, "VC_Desk_Tablet".toList),
   (env.cubeOk && meshOk, "VC_BackWall".toList)]
  ++ (List.range 9).map (fun k =>
      (env.cubeOk && meshOk, "VC_BackGrid_V_".toList ++ pyPlusD ((k : Int) - 4)))
  ++ (List.range 6).map (fun k =>
      (env.cubeOk && meshOk, "VC_BackGrid_H_".toList ++ pyPlusD ((k : Int) - 2)))
  ++ [(env.planeOk && meshOk, "VC_Screen".toList)]
  ++ (List.range 3).flatMap (fun idx =>
      [(env.cubeOk && meshOk, "VC_Screen_XA_".toList ++ (toString idx).toList),
       (env.cubeOk && meshOk, "VC_Screen_XB_".toList ++ (toString idx).toList)])
  ++ [(env.metahumanOk, "VC_Anchor_Vivian".toList),
      (keyFillClassOk && env.spawnLightOk, "VC_KeyLight".toList),
      (keyFillClassOk && env.spawnLightOk, "VC_FillLight".toList),
      (rimClassOk && env.spawnLightOk, "VC_RimLight".toList),
      (camOk, "VC_Cam_Wide".toList),
      (camOk, "VC_Cam_Medium".toList),
      (camOk, "VC_Cam_Close".toList)]

/-- The actors a build adds to the level. -/
def newStudioActors (env : BuildEnv) : List SceneActor :=
  (studioCatalogue env).filterMap (fun p => spawnIf p.1 p.2)

/-- `_delete_previous`: destroy every level actor whose tag list
contains the marker tag. -/
def deletePrevious (level : List SceneActor) : List SceneActor :=
  level.filter (fun a => !a.tags.contains studioTag)

/-- `create_basic_studio`: delete the previous tagged actors, then spawn
the catalogue. -/
def createBasicStudio (env : BuildEnv) (level : List SceneActor) : List SceneActor :=
  deletePrevious level ++ newStudioActors env

/-- Number of marker-tagged actors in a level. -/
def taggedCount (level : List SceneActor) : Nat :=
  (level.filter (fun a => a.tags.contains studioTag)).length

/-! ## Camera aiming — `_yaw_towards`

`math.degrees(math.atan2(dy, dx))`, with the IEEE doubles idealized as
real numbers; `atan2 y x` is the argument of the complex number
`x + y·i`, which matches `math.atan2`'s quadrant convention (range
`(-π, π]`, `atan2 0 0 = 0`). -/

/-- An `unreal.Vector`. -/
structure Vec3 where
  x : ℝ
  y : ℝ
  z : ℝ

/-- `math.atan2`. -/
noncomputable def atan2 (y x : ℝ) : ℝ := Complex.arg ⟨x, y⟩

/-- `math.degrees`. -/
noncomputable def degrees (r : ℝ) : ℝ := r * 180 / Real.pi

/-- `_yaw_towards(src, dst)`. -/
noncomputable def yawTowards (src dst : Vec3) : ℝ :=
  degrees (atan2 (dst.y - src.y) (dst.x - src.x))

/-! ## Spec-side predicates and concrete instances used by the claims -/

/-- The specification's `\d+x\d+` pattern occurring in a string
(`re`-search reading: some nonempty digit run, `x`, nonempty digit run
appears as a contiguous fragment). -/
def SpecHasRes (s : List Char) : Prop :=
  ∃ a b : List Char, a ≠ [] ∧ b ≠ [] ∧ (∀ c ∈ a, c.isDigit = true) ∧
    (∀ c ∈ b, c.isDigit = true) ∧ (a ++ 'x' :: b) <:+: s

/-- A state in which the render job has just finished and the tick hook
is still registered, no exit having been requested yet. -/
def tickFinishedState : TickState :=
  { finished := true, success := true, startTime := 0, lastHeartbeat := 0,
    tickRegistered := true, exitRequests := 0, heartbeats := 0 }

/-- A concrete media environment: the command line names an existing
video, all media assets build and the screen actor exists, so the apply
succeeds. -/
def mediaEnvCmdline : MediaEnv :=
  { cmdline := "-VirtuCastScreenVideo=C:/vids/intro.mp4".toList
    existingFiles := ["C:/vids/intro.mp4".toList]
    contentDir := "C:/Proj/Content/".toList
    mediaAssetsOk := true
    materialOk := true
    screenActorExists := true }

/-- A concrete startup environment with the auto-render flag present and
the default script existing. -/
def initEnvAuto : InitEnv :=
  { cmdline := "-VirtuCastAutoRender=1".toList
    toolMenusOk := true
    menuBuildOk := true
    projectDir := "/proj/".toList
    existingFiles := ["/proj/Scripts/virtu_render_queue.py".toList] }

/-- A placeholder job configuration (used only as an `Option.getD`
default in closed statements). -/
def fallbackJob : JobConfig :=
  { map := [], sequence := [], outputDirectory := [], resolution := (0, 0),
    frameRate := 0, fileNameFormat := [], overrideExisting := false }

def fpsCmdAbsent : List Char :=
  "-VirtuCastMap=/Game/M.M -VirtuCastSequence=/Game/S.S -VirtuCastOut=/out".toList

def fpsCmdBad : List Char :=
  "-VirtuCastMap=/Game/M.M -VirtuCastSequence=/Game/S.S -VirtuCastOut=/out -VirtuCastFps=abc".toList

def fpsCmdGood : List Char :=
  "-VirtuCastMap=/Game/M.M -VirtuCastSequence=/Game/S.S -VirtuCastOut=/out -VirtuCastFps=24".toList

/-! ## Shared helper lemmas -/

theorem takeWhile_append_of_all {α} (p : α → Bool) {l1 : List α} (l2 : List α)
    (h : ∀ c ∈ l1, p c = true) : (l1 ++ l2).takeWhile p = l1 ++ l2.takeWhile p := by
  induction l1 with
  | nil => simp
  | cons a l ih =>
    have ha : p a = true := h a (List.mem_cons_self a l)
    simp only [List.cons_append, List.takeWhile_cons, ha, if_true]
    rw [ih fun c hc => h c (List.mem_cons_of_mem a hc)]

theorem pyStrip_infix (s : List Char) : pyStrip s <:+: s :=
  (List.rdropWhile_prefix _ _).isInfix.trans (List.dropWhile_suffix _).isInfix

/-! ## C4 — package-path extraction -/

/-- C4: for a bare object path `pkg.asset` with dot-free components,
`_extract_package_path` returns the path minus its trailing `.AssetName`
suffix; a path containing no dot is returned unchanged; and
`/Game/Maps/Test1.Test1` maps to `/Game/Maps/Test1`. -/
theorem extractPackagePath_correct (pkg asset : List Char)
    (hp : ('.' : Char) ∉ pkg) (_ha : ('.' : Char) ∉ asset) :
    extractPackagePath (pkg ++ '.' :: asset) = pkg ∧
    extractPackagePath pkg = pkg ∧
    extractPackagePath "/Game/Maps/Test1.Test1".toList = "/Game/Maps/Test1".toList := by
  refine ⟨?_, ?_, by decide⟩
  · unfold extractPackagePath
    rw [if_pos (by simp)]
    rw [takeWhile_append_of_all _ _ (fun c hc => by
      simp only [bne_iff_ne, ne_eq]
      exact fun hdot => hp (hdot ▸ hc))]
    simp [List.takeWhile_cons]
  · unfold extractPackagePath
    rw [if_neg hp]

/-- C4 witness: the general theorem applied at
`/Game/Maps/Test1` + `.Test1`. -/
theorem extractPackagePath_correct_witness :
    extractPackagePath ("/Game/Maps/Test1".toList ++ '.' :: "Test1".toList) =
      "/Game/Maps/Test1".toList :=
  (extractPackagePath_correct "/Game/Maps/Test1".toList "Test1".toList
    (by decide) (by decide)).1

/-! ## C7 — resolution parsing -/

theorem SpecHasRes.mem_x {s : List Char} (h : SpecHasRes s) : 'x' ∈ s := by
  obtain ⟨a, b, -, -, -, -, hinf⟩ := h
  exact hinf.subset (by simp)

/-- C7: `"1920x1080"` parses to `(1920, 1080)`, and any string in which
no `\d+x\d+` fragment occurs parses to the default `(1920, 1080)`;
`_parse_resolution` is a total function, so parsing never raises. -/
theorem parseResolution_correct :
    parseResolution "1920x1080".toList = (1920, 1080) ∧
    ∀ s : List Char, ¬ SpecHasRes s → parseResolution s = (1920, 1080) := by
  refine ⟨by decide, fun s hs => ?_⟩
  unfold parseResolution
  rcases hd : (pyStrip s).dropWhile Char.isDigit with - | ⟨c, rest⟩
  · rfl
  · by_cases hx : c = 'x'
    · subst hx
      simp only
      rcases hcond : !((pyStrip s).takeWhile Char.isDigit).isEmpty &&
          !rest.isEmpty && rest.all Char.isDigit with - | -
      · simp only [hcond, Bool.false_eq_true, if_false]
      · exfalso
        apply hs
        simp only [Bool.and_eq_true, Bool.not_eq_true', List.isEmpty_eq_false,
          List.all_eq_true, ne_eq] at hcond
        refine ⟨(pyStrip s).takeWhile Char.isDigit, rest, hcond.1.1, hcond.1.2,
          fun c hc => List.mem_takeWhile_imp hc, hcond.2, ?_⟩
        have hsplit : (pyStrip s).takeWhile Char.isDigit ++ 'x' :: rest = pyStrip s := by
          rw [← hd]; exact List.takeWhile_append_dropWhile _ _
        rw [hsplit]
        exact pyStrip_infix s
    · split
      · rename_i r heq
        injection heq with h1 h2
        exact absurd h1 hx
      · rfl

/-- C7 witness: the theorem applied at the concrete non-matching input
`"abc"`. -/
theorem parseResolution_correct_witness :
    parseResolution "abc".toList = (1920, 1080) :=
  parseResolution_correct.2 "abc".toList
    (fun h => absurd h.mem_x (by decide))

/-! ## C5 — idempotent studio rebuild -/

theorem newStudioActors_tags {env : BuildEnv} {a : SceneActor}
    (h : a ∈ newStudioActors env) : a.tags = [studioTag] := by
  unfold newStudioActors at h
  obtain ⟨p, -, hp⟩ := List.mem_filterMap.mp h
  unfold spawnIf at hp
  split at hp
  · cases hp; rfl
  · cases hp

theorem deletePrevious_newStudioActors (env : BuildEnv) :
    deletePrevious (newStudioActors env) = [] := by
  unfold deletePrevious
  rw [List.filter_eq_nil_iff]
  intro a ha
  simp [newStudioActors_tags ha]

theorem deletePrevious_idem (level : List SceneActor) :
    deletePrevious (deletePrevious level) = deletePrevious level := by
  unfold deletePrevious
  rw [List.filter_filter]
  simp

/-- C5: rebuilding the studio twice over any starting level and under
any (fixed) engine environment leaves exactly as many marker-tagged
actors as building it once — every build first deletes all tagged
actors, and every actor it spawns carries the tag. -/
theorem createBasicStudio_idempotent (env : BuildEnv) (level : List SceneActor) :
    taggedCount (createBasicStudio env (createBasicStudio env level)) =
      taggedCount (createBasicStudio env level) := by
  have hfull : createBasicStudio env (createBasicStudio env level) =
      createBasicStudio env level := by
    unfold createBasicStudio
    unfold deletePrevious
    rw [List.filter_append]
    show deletePrevious (deletePrevious level) ++
        deletePrevious (newStudioActors env) ++ _ = _
    rw [deletePrevious_idem, deletePrevious_newStudioActors, List.append_nil]
    rfl
  rw [hfull]

/-! ## C1 — exit requests from the tick callback -/

theorem runTicks_not_registered {s : TickState} (h : s.tickRegistered = false)
    (ts : List Nat) : runTicks s ts = s := by
  cases ts with
  | nil => rfl
  | cons t ts => simp [runTicks, h]

theorem runTicks_exitRequests_le_one (ts : List Nat) (s : TickState)
    (h : s.exitRequests = 0) : (runTicks s ts).exitRequests ≤ 1 := by
  induction ts generalizing s with
  | nil => simp [runTicks, h]
  | cons t ts ih =>
    unfold runTicks
    split
    · unfold tickCallback
      split
      · rw [runTicks_not_registered rfl]
        simp [h]
      · split
        · rw [runTicks_not_registered rfl]
          simp [h]
        · split
          · exact ih _ h
          · exact ih _ h
    · simp [h]

/-- C1 counterexample: `_tick_callback` sets no guard after requesting
exit, so when the host invokes it a second time after the first exit
request (deregistration not yet effective), `_quit_editor` is called
again — two exit requests, refuting "never more than once, even if the
tick callback is invoked again before deregistration takes effect". -/
theorem tickCallback_double_exit_counterexample :
    (tickCallback 0 (tickCallback 0 tickFinishedState)).exitRequests = 2 := by
  decide

/-- C1 amended: one tick invocation requests exit at most once, and does
so exactly when the job has finished or the timeout has elapsed (the
three branches are checked in that order, so whichever fires first
requests the exit), deregistering the hook in either exit branch; hence
a host loop that honors the deregistration immediately produces at most
one exit request in total.  Only if the callback is invoked again after
the first exit request and before deregistration takes effect is exit
requested again. -/
theorem tickCallback_exit_protocol (now : Nat) (s : TickState) :
    ((tickCallback now s).exitRequests ≤ s.exitRequests + 1) ∧
    ((tickCallback now s).exitRequests = s.exitRequests + 1 ↔
      (s.finished = true ∨ timeoutSeconds < now - s.startTime)) ∧
    ((tickCallback now s).exitRequests = s.exitRequests + 1 →
      (tickCallback now s).tickRegistered = false) ∧
    (∀ ts : List Nat, s.exitRequests = 0 → (runTicks s ts).exitRequests ≤ 1) := by
  refine ⟨?_, ?_, ?_, fun ts h => runTicks_exitRequests_le_one ts s h⟩ <;>
    · unfold tickCallback
      split
      · rename_i hf
        simp [hf]
      · rename_i hf
        split
        · rename_i ht
          simp [hf, ht]
        · rename_i ht
          split <;> simp [hf, ht]

/-- C1 witness: the amended theorem applied to a concrete pending state
and a concrete tick trace in which the second tick exceeds the timeout. -/
theorem tickCallback_exit_protocol_witness :
    ({ finished := false, success := false, startTime := 0, lastHeartbeat := 0,
        tickRegistered := true, exitRequests := 0, heartbeats := 0 } :
        TickState).exitRequests = 0 ∧
    (runTicks
      { finished := false, success := false, startTime := 0, lastHeartbeat := 0,
        tickRegistered := true, exitRequests := 0, heartbeats := 0 }
      [1, 11, 4000, 4001]).exitRequests ≤ 1 :=
  ⟨rfl,
    (tickCallback_exit_protocol 0
      { finished := false, success := false, startTime := 0, lastHeartbeat := 0,
        tickRegistered := true, exitRequests := 0, heartbeats := 0 }).2.2.2
      [1, 11, 4000, 4001] rfl⟩

/-! ## C3 — screen-video persistence -/

/-- C3 counterexample: a successful apply through the command-line path
(`_apply_screen_video_default`) leaves the persisted side file untouched
(`none`), refuting "after every successful application ... the applied
video path is written to the persisted side file". -/
theorem applyScreenVideoDefault_no_persist_counterexample :
    (applyScreenVideoDefault mediaEnvCmdline
        { lastScreenVideo := none, sideFile := none }).2 = true ∧
    (applyScreenVideoDefault mediaEnvCmdline
        { lastScreenVideo := none, sideFile := none }).1.sideFile = none := by
  decide

/-- C3 amended: the cached/command-line/default apply flow never writes
the persisted side file; only the file-picker flow writes it, and it
stores the picked path before the apply is attempted (regardless of
success), from where a later run can reuse it; a cancelled picker
changes nothing. -/
theorem screenVideo_persistence (env : MediaEnv) (s : MediaState) :
    ((applyScreenVideoDefault env s).1.sideFile = s.sideFile) ∧
    (∀ p, (pickAndApplyScreenVideo env (some p) s).1.sideFile = some p) ∧
    (pickAndApplyScreenVideo env none s = (s, false)) :=
  ⟨rfl, fun _ => rfl, rfl⟩

/-! ## C9 — the startup hook runs the render script at most once -/

theorem initMain_of_alreadyRan {env : InitEnv} {s : InitState}
    (h : s.alreadyRan = true) : initMain env s = (s, []) := by
  unfold initMain
  rw [if_pos h]

/-- C9: once an invocation of `main` in `init_unreal.py` passes the
auto-render check with a truthy `-VirtuCastAutoRender`, `_ALREADY_RAN`
is set, and from then on every invocation of `main` returns immediately:
the state is unchanged and no effect (no menu registration, no script
run, no exit request) is produced. -/
theorem initMain_runs_once (env : InitEnv) (s : InitState) :
    (s.alreadyRan = true → initMain env s = (s, [])) ∧
    (s.alreadyRan = false →
      truthy (getArg env.cmdline virtuCastAutoRenderArg) = true →
      (initMain env s).1.alreadyRan = true ∧
      ∀ env' : InitEnv, initMain env' (initMain env s).1 = ((initMain env s).1, [])) := by
  refine ⟨fun h => initMain_of_alreadyRan h, fun h1 h2 => ?_⟩
  have hfst : (initMain env s).1.alreadyRan = true := by
    unfold initMain
    rw [if_neg (by simp [h1]), if_neg (by simp [h2])]
    dsimp only
    split <;> rfl
  exact ⟨hfst, fun env' => initMain_of_alreadyRan hfst⟩

/-- C9 witness: the theorem applied to the concrete environment, fresh
state, and a second invocation. -/
theorem initMain_runs_once_witness :
    (initMain initEnvAuto { alreadyRan := false, menuRegistered := false }).1.alreadyRan
      = true ∧
    initMain initEnvAuto
        (initMain initEnvAuto { alreadyRan := false, menuRegistered := false }).1 =
      ((initMain initEnvAuto { alreadyRan := false, menuRegistered := false }).1, []) :=
  ⟨((initMain_runs_once initEnvAuto
      { alreadyRan := false, menuRegistered := false }).2 rfl (by decide)).1,
   ((initMain_runs_once initEnvAuto
      { alreadyRan := false, menuRegistered := false }).2 rfl (by decide)).2 initEnvAuto⟩

/-! ## C6 — hard precondition failure before any engine mutation -/

/-- C6: if any of `-VirtuCastMap`, `-VirtuCastSequence`, `-VirtuCastOut`
is absent from the command line, `main` raises the fatal
missing-arguments error with an empty effect trace — before the map
load, before the queue is cleared or a job allocated, and before any
other host-engine mutation — and no job is configured. -/
theorem renderMain_missing_args (cmdline : List Char)
    (h : getArg cmdline virtuCastMapArg = none ∨
      getArg cmdline virtuCastSequenceArg = none ∨
      getArg cmdline virtuCastOutArg = none) :
    (renderMain cmdline).error = some missingArgsMsg ∧
    (renderMain cmdline).effects = [] ∧
    (renderMain cmdline).job = none := by
  have hcond : (!pyTruthyStr (getArg cmdline virtuCastMapArg) ||
      !pyTruthyStr (getArg cmdline virtuCastSequenceArg) ||
      !pyTruthyStr (getArg cmdline virtuCastOutArg)) = true := by
    rcases h with h | h | h <;> simp [h, pyTruthyStr]
  unfold renderMain
  rw [if_pos hcond]
  exact ⟨rfl, rfl, rfl⟩

/-- C6 witness: a command line providing the map and the sequence but no
output directory. -/
theorem renderMain_missing_args_witness :
    (renderMain ("-VirtuCastMap=/Game/Maps/Test1.Test1 -VirtuCastSequence=/Game/Cine/Seq.Seq".toList)).effects = [] ∧
    (renderMain ("-VirtuCastMap=/Game/Maps/Test1.Test1 -VirtuCastSequence=/Game/Cine/Seq.Seq".toList)).error = some missingArgsMsg :=
  ⟨(renderMain_missing_args _ (Or.inr (Or.inr (by decide)))).2.1,
   (renderMain_missing_args _ (Or.inr (Or.inr (by decide)))).1⟩

/-! ## C10 — frame-rate fallback -/

/-- C10: whenever `main` configures a job, an absent `-VirtuCastFps`
argument yields frame rate exactly 30, a present but unparseable value
yields 30 (the `ValueError` is caught, nothing is raised — `pyInt` and
`renderMain` are total), and a parseable integer value is used as
given. -/
theorem renderMain_fps (cmdline : List Char) (j : JobConfig)
    (hj : (renderMain cmdline).job = some j) :
    (getArg cmdline virtuCastFpsArg = none → j.frameRate = 30) ∧
    (∀ v, getArg cmdline virtuCastFpsArg = some v → pyInt v = none →
      j.frameRate = 30) ∧
    (∀ v k, getArg cmdline virtuCastFpsArg = some v → pyInt v = some k →
      j.frameRate = k) := by
  unfold renderMain at hj
  dsimp only at hj
  split at hj
  · cases hj
  · rw [Option.some_inj] at hj
    subst hj
    refine ⟨fun hnone => ?_, fun v hv hbad => ?_, fun v k hv hk => ?_⟩
    · simp [pyOrStr, hnone]
      decide
    · rcases he : v.isEmpty with - | -
      · simp [pyOrStr, hv, he, hbad]
      · simp [pyOrStr, hv, he]
        decide
    · have hne : v.isEmpty = false := by
        rcases he : v.isEmpty with - | -
        · rfl
        · rw [List.isEmpty_eq_true] at he
          subst he
          cases hk ▸ (show pyInt ([] : List Char) = none by decide)
      simp [pyOrStr, hv, hne, hk]

/-- C10 witness: the theorem applied to three concrete command lines —
frame-rate argument absent, unparseable, and equal to 24. -/
theorem renderMain_fps_witness :
    ((renderMain fpsCmdAbsent).job.getD fallbackJob).frameRate = 30 ∧
    ((renderMain fpsCmdBad).job.getD fallbackJob).frameRate = 30 ∧
    ((renderMain fpsCmdGood).job.getD fallbackJob).frameRate = 24 :=
  ⟨(renderMain_fps fpsCmdAbsent _ (by decide)).1 (by decide),
   (renderMain_fps fpsCmdBad _ (by decide)).2.1 "abc".toList (by decide) (by decide),
   (renderMain_fps fpsCmdGood _ (by decide)).2.2 "24".toList 24 (by decide) (by decide)⟩

/-! ## C8 — camera yaw-towards rule -/

theorem degrees_pi_div_two : degrees (Real.pi / 2) = 90 := by
  unfold degrees
  field_simp
  ring

theorem degrees_pi : degrees Real.pi = 180 := by
  unfold degrees
  field_simp

/-- C8: the horizontal aim angle is `degrees (atan2 dy dx)` for
`dy = target.y − position.y`, `dx = target.x − position.x`, and the
axis-aligned cases from position `(0,0)` give yaw `0°` towards
`(10,0)`, `90°` towards `(0,10)` and `180°` towards `(−10,0)`. -/
theorem yawTowards_correct :
    (∀ src dst : Vec3,
      yawTowards src dst = degrees (atan2 (dst.y - src.y) (dst.x - src.x))) ∧
    yawTowards ⟨0, 0, 0⟩ ⟨10, 0, 0⟩ = 0 ∧
    yawTowards ⟨0, 0, 0⟩ ⟨0, 10, 0⟩ = 90 ∧
    yawTowards ⟨0, 0, 0⟩ ⟨-10, 0, 0⟩ = 180 := by
  refine ⟨fun _ _ => rfl, ?_, ?_, ?_⟩
  · show degrees (atan2 (0 - 0) (10 - 0)) = 0
    have h : atan2 (0 - 0) (10 - 0) = 0 := by
      unfold atan2
      have : (⟨10 - 0, 0 - 0⟩ : ℂ) = ((10 : ℝ) : ℂ) := by
        apply Complex.ext <;> simp
      rw [this]
      exact Complex.arg_ofReal_of_nonneg (by norm_num)
    rw [h]
    simp [degrees]
  · show degrees (atan2 (10 - 0) (0 - 0)) = 90
    have h : atan2 (10 - 0) (0 - 0) = Real.pi / 2 := by
      unfold atan2
      have : (⟨0 - 0, 10 - 0⟩ : ℂ) = ((10 : ℝ) : ℂ) * Complex.I := by
        apply Complex.ext <;> simp
      rw [this, Complex.arg_real_mul _ (by norm_num : (0 : ℝ) < 10)]
      exact Complex.arg_I
    rw [h, degrees_pi_div_two]
  · show degrees (atan2 (0 - 0) (-10 - 0)) = 180
    have h : atan2 (0 - 0) (-10 - 0) = Real.pi := by
      unfold atan2
      have : (⟨-10 - 0, 0 - 0⟩ : ℂ) = ((-10 : ℝ) : ℂ) := by
        apply Complex.ext <;> simp
      rw [this]
      exact Complex.arg_ofReal_of_neg (by norm_num)
    rw [h, degrees_pi]

/-! ## C2 — command-line round trip -/

theorem stripPrefixList_self_append (p rest : List Char) :
    stripPrefixList p (p ++ rest) = some rest := by
  induction p with
  | nil => rfl
  | cons a p ih => simp [stripPrefixList, ih]

theorem name_eq_of_stripPrefixList {n m w r : List Char}
    (hn : ('=' : Char) ∉ n) (hm : ('=' : Char) ∉ m)
    (h : stripPrefixList (n ++ ['=']) (m ++ '=' :: w) = some r) : n = m := by
  induction n generalizing m with
  | nil =>
    cases m with
    | nil => rfl
    | cons c m' =>
      rw [List.nil_append, List.cons_append] at h
      unfold stripPrefixList at h
      split at h
      · rename_i hc
        exact absurd (hc ▸ List.mem_cons_self c m') hm
      · cases h
  | cons a n' ih =>
    cases m with
    | nil =>
      rw [List.cons_append, List.nil_append] at h
      unfold stripPrefixList at h
      split at h
      · rename_i hc
        exact absurd (hc ▸ List.mem_cons_self a n') hn
      · cases h
    | cons c m' =>
      rw [List.cons_append, List.cons_append] at h
      unfold stripPrefixList at h
      split at h
      · rename_i hc
        subst hc
        rw [ih (fun hx => hn (List.mem_cons_of_mem _ hx))
          (fun hx => hm (List.mem_cons_of_mem _ hx)) h]
      · cases h

theorem matchToken_cons (n : List Char) (c : Char) (cs : List Char) :
    matchToken n (c :: cs) =
      if c = '-' then
        (match stripPrefixList (n ++ ['=']) cs with
         | some after => matchValue after
         | none => none)
      else none := rfl

theorem matchValue_cons (c : Char) (cs : List Char) :
    matchValue (c :: cs) =
      if c = '"' then
        (if '"' ∈ cs then some (some (cs.takeWhile (fun x => x != '"')), none)
         else matchBare (c :: cs))
      else matchBare (c :: cs) := rfl

theorem matchToken_renderTok {t : ArgTok} (tail : List Char)
    (hv : ValidValue t)
    (htail : tail = [] ∨ ∃ r, tail = ' ' :: r) :
    matchToken t.name (renderTok t ++ tail) =
      some (if t.quoted then ((some t.value, none) : ArgGroups)
        else (none, some t.value)) := by
  obtain ⟨hne, hq, hnsd, hbare⟩ := hv
  have htw : tail.takeWhile (fun c => !isPySpace c) = [] := by
    rcases htail with rfl | ⟨r, rfl⟩
    · rfl
    · rfl
  unfold renderTok
  rw [List.cons_append, matchToken_cons, if_pos rfl]
  have harr : (t.name ++ '=' :: (if t.quoted then '"' :: (t.value ++ ['"'])
      else t.value)) ++ tail =
      (t.name ++ ['=']) ++
        ((if t.quoted then '"' :: (t.value ++ ['"']) else t.value) ++ tail) := by
    simp
  rw [harr, stripPrefixList_self_append]
  dsimp only
  rcases htq : t.quoted with - | -
  · rw [if_neg (by simp), if_neg (by simp)]
    rcases hval : t.value with - | ⟨v0, vr⟩
    · exact absurd hval hne
    · rw [List.cons_append, matchValue_cons,
        if_neg (show ¬v0 = '"' from fun hq0 => hq (by
          rw [hval, ← hq0]
          exact List.mem_cons_self v0 vr))]
      unfold matchBare
      dsimp only
      rw [show v0 :: (vr ++ tail) = (v0 :: vr) ++ tail from rfl]
      rw [takeWhile_append_of_all _ tail (fun c hc => by
        rw [Bool.not_eq_eq_eq_not, Bool.not_true]
        exact hbare htq c (hval ▸ hc))]
      rw [htw, List.append_nil]
      rw [if_neg (by simp)]
  · rw [if_pos rfl, if_pos rfl]
    rw [List.cons_append, List.append_assoc, matchValue_cons, if_pos rfl]
    rw [if_pos (by simp)]
    rw [takeWhile_append_of_all _ (['"'] ++ tail) (fun c hc => by
      rw [bne_iff_ne, ne_eq]
      exact fun hc' => hq (hc' ▸ hc))]
    rw [show (['"'] ++ tail).takeWhile (fun x => x != '"') = [] from by
      simp [List.takeWhile_cons]]
    rw [List.append_nil]

theorem getArg_renderTok_head {t : ArgTok} (tail : List Char)
    (hv : ValidValue t) (htail : tail = [] ∨ ∃ r, tail = ' ' :: r) :
    getArg (renderTok t ++ tail) t.name = some t.value := by
  unfold getArg searchArg
  rw [matchToken_renderTok tail hv htail, Option.some_orElse]
  rcases htq : t.quoted with - | -
  · simp
  · simp [hv.1]

theorem goodInt_cons_nonspace {c : Char} {rest : List Char}
    (hc : isPySpace c = false) (h : GoodInt rest) : GoodInt (c :: rest) :=
  ⟨fun hsp => absurd hsp (by simp [hc]), h⟩

theorem goodInt_append_nospaces {u v : List Char}
    (hu : ∀ c ∈ u, isPySpace c = false) (hv : GoodInt v) : GoodInt (u ++ v) := by
  induction u with
  | nil => exact hv
  | cons a l ih =>
    exact goodInt_cons_nonspace (hu a (List.mem_cons_self a l))
      (ih fun c hc => hu c (List.mem_cons_of_mem a hc))

theorem goodInt_of_nospaces {u : List Char}
    (hu : ∀ c ∈ u, isPySpace c = false) : GoodInt u := by
  rw [← List.append_nil u]
  exact goodInt_append_nospaces hu trivial

theorem goodInt_value_quote {v : List Char} (h : noSpaceDash v = true) :
    GoodInt (v ++ ['"']) := by
  induction v with
  | nil => exact goodInt_cons_nonspace (by decide) trivial
  | cons a v' ih =>
    have hrest : noSpaceDash v' = true := by
      cases v' with
      | nil => rfl
      | cons b r =>
        rw [show noSpaceDash (a :: b :: r) =
          (!(isPySpace a && b == '-') && noSpaceDash (b :: r)) from rfl,
          Bool.and_eq_true] at h
        exact h.2
    refine ⟨fun hsp => ?_, ih hrest⟩
    cases v' with
    | nil => exact ⟨'"', [], rfl, by decide⟩
    | cons b r =>
      refine ⟨b, r ++ ['"'], rfl, ?_⟩
      rw [show noSpaceDash (a :: b :: r) =
        (!(isPySpace a && b == '-') && noSpaceDash (b :: r)) from rfl,
        Bool.and_eq_true] at h
      have hh := h.1
      simp only [hsp, Bool.true_and, Bool.not_eq_true'] at hh
      exact ne_of_beq_false hh

theorem goodInt_renderTok {t : ArgTok} (hn : ValidName t.name)
    (hv : ValidValue t) : GoodInt (renderTok t) := by
  unfold renderTok
  apply goodInt_cons_nonspace (by decide)
  apply goodInt_append_nospaces (fun c hc => (hn.2 c hc).1)
  apply goodInt_cons_nonspace (by decide)
  rcases htq : t.quoted with - | -
  · rw [if_neg (by simp)]
    exact goodInt_of_nospaces (hv.2.2.2 htq)
  · rw [if_pos rfl]
    exact goodInt_cons_nonspace (by decide) (goodInt_value_quote hv.2.2.1)

theorem matchToken_cons_ne_dash {n : List Char} {c : Char} {cs : List Char}
    (hc : c ≠ '-') : matchToken n (c :: cs) = none := by
  rw [matchToken_cons, if_neg hc]

theorem matchToken_renderTok_ne {name : List Char} {t : ArgTok} (tail : List Char)
    (hne : name ≠ t.name) (hn : ('=' : Char) ∉ name) (hm : ('=' : Char) ∉ t.name) :
    matchToken name (renderTok t ++ tail) = none := by
  unfold renderTok
  rw [List.cons_append, matchToken_cons, if_pos rfl]
  have harr : (t.name ++ '=' :: (if t.quoted then '"' :: (t.value ++ ['"'])
      else t.value)) ++ tail =
      t.name ++ '=' ::
        ((if t.quoted then '"' :: (t.value ++ ['"']) else t.value) ++ tail) := by
    simp
  rw [harr]
  rcases hs : stripPrefixList (name ++ ['=']) (t.name ++ '=' :: _) with - | r
  · rfl
  · exact absurd (name_eq_of_stripPrefixList hn hm hs) hne

theorem searchArgAux_cons (n : List Char) (c : Char) (rest : List Char) :
    searchArgAux n (c :: rest) =
      ((if isPySpace c then matchToken n rest else none) <|> searchArgAux n rest) :=
  rfl

theorem searchArgAux_goodInt_append {n u tail : List Char} (h : GoodInt u) :
    searchArgAux n (u ++ tail) = searchArgAux n tail := by
  induction u with
  | nil => rfl
  | cons c u' ih =>
    obtain ⟨h1, h2⟩ := h
    rw [List.cons_append, searchArgAux_cons]
    rcases hsp : isPySpace c with - | -
    · rw [if_neg (by simp [hsp]), Option.none_orElse]
      exact ih h2
    · obtain ⟨d, r, hdr, hd⟩ := h1 hsp
      subst hdr
      rw [if_pos rfl, List.cons_append, matchToken_cons_ne_dash hd,
        Option.none_orElse]
      exact ih h2

theorem searchArg_skip_cons {name : List Char} {t : ArgTok} (rest' : List Char)
    (hne : name ≠ t.name) (hn : ('=' : Char) ∉ name) (hm : ('=' : Char) ∉ t.name)
    (hg : GoodInt (renderTok t)) :
    searchArg name (renderTok t ++ ' ' :: rest') = searchArg name rest' := by
  unfold searchArg
  rw [matchToken_renderTok_ne (' ' :: rest') hne hn hm, Option.none_orElse]
  rw [searchArgAux_goodInt_append hg, searchArgAux_cons,
    if_pos (show isPySpace ' ' = true from rfl)]

theorem searchArg_skip_last {name : List Char} {t : ArgTok}
    (hne : name ≠ t.name) (hn : ('=' : Char) ∉ name) (hm : ('=' : Char) ∉ t.name)
    (hg : GoodInt (renderTok t)) :
    searchArg name (renderTok t) = none := by
  unfold searchArg
  rw [← List.append_nil (renderTok t)]
  rw [matchToken_renderTok_ne [] hne hn hm, Option.none_orElse]
  rw [searchArgAux_goodInt_append hg]
  rfl

theorem getArg_eq_of_searchArg {cs1 cs2 n : List Char}
    (h : searchArg n cs1 = searchArg n cs2) : getArg cs1 n = getArg cs2 n := by
  unfold getArg
  rw [h]

theorem getArg_none_of_searchArg {cs n : List Char}
    (h : searchArg n cs = none) : getArg cs n = none := by
  unfold getArg
  rw [h]

theorem ValidName.eq_char_notMem {n : List Char} (h : ValidName n) :
    ('=' : Char) ∉ n :=
  fun hm => ((h.2 '=' hm).2.1) rfl

/-- C2: for every well-formed command line, extraction by the name of
any token returns exactly that token's value (bare or quoted, including
embedded whitespace in quoted values), and extraction by any valid name
matching no token returns `none`; `_get_arg` is a total function, so
extraction never raises on any input. -/
theorem getArg_roundtrip (ts : List ArgTok) (h : WfArgs ts) :
    (∀ t ∈ ts, getArg (renderArgs ts) t.name = some t.value) ∧
    (∀ n, ValidName n → n ∉ ts.map ArgTok.name → getArg (renderArgs ts) n = none) := by
  induction ts with
  | nil =>
    exact ⟨fun t ht => absurd ht (List.not_mem_nil t), fun n _ _ => rfl⟩
  | cons t ts ih =>
    obtain ⟨hall, hnodup⟩ := h
    have hwt := hall t (List.mem_cons_self t ts)
    have hwts : WfArgs ts :=
      ⟨fun u hu => hall u (List.mem_cons_of_mem t hu), (List.nodup_cons.mp hnodup).2⟩
    have htnotin : t.name ∉ ts.map ArgTok.name := (List.nodup_cons.mp hnodup).1
    obtain ⟨ihp, iha⟩ := ih hwts
    constructor
    · intro u hu
      rcases List.mem_cons.mp hu with rfl | hu'
      · cases ts with
        | nil =>
          have := getArg_renderTok_head (t := u) [] hwt.2 (Or.inl rfl)
          rwa [List.append_nil] at this
        | cons t2 ts2 =>
          show getArg (renderTok u ++ ' ' :: renderArgs (t2 :: ts2)) u.name = _
          exact getArg_renderTok_head _ hwt.2 (Or.inr ⟨_, rfl⟩)
      · have hwu := hall u (List.mem_cons_of_mem t hu')
        have hune : u.name ≠ t.name :=
          fun he => htnotin (he ▸ List.mem_map_of_mem ArgTok.name hu')
        cases ts with
        | nil => cases hu'
        | cons t2 ts2 =>
          show getArg (renderTok t ++ ' ' :: renderArgs (t2 :: ts2)) u.name = _
          rw [getArg_eq_of_searchArg (searchArg_skip_cons _ hune
            hwu.1.eq_char_notMem hwt.1.eq_char_notMem
            (goodInt_renderTok hwt.1 hwt.2))]
          exact ihp u hu'
    · intro n hn hnin
      have hn1 : n ≠ t.name := fun he => hnin (by simp [he])
      have hn2 : n ∉ ts.map ArgTok.name := fun hmem => hnin (by simp [hmem])
      cases ts with
      | nil =>
        show getArg (renderTok t) n = none
        exact getArg_none_of_searchArg (searchArg_skip_last hn1
          hn.eq_char_notMem hwt.1.eq_char_notMem (goodInt_renderTok hwt.1 hwt.2))
      | cons t2 ts2 =>
        show getArg (renderTok t ++ ' ' :: renderArgs (t2 :: ts2)) n = none
        rw [getArg_eq_of_searchArg (searchArg_skip_cons _ hn1
          hn.eq_char_notMem hwt.1.eq_char_notMem (goodInt_renderTok hwt.1 hwt.2))]
        exact iha n hn hn2

/-- C2 witness: a concrete well-formed command line with one bare and
one quoted argument, extracted by a present name (quoted value with an
embedded space comes back exactly) and by an absent name. -/
theorem getArg_roundtrip_witness :
    WfArgs [⟨"VirtuCastMap".toList, "/Game/Maps/Test1.Test1".toList, false⟩,
      ⟨"Title".toList, "Evening News".toList, true⟩] ∧
    getArg (renderArgs [⟨"VirtuCastMap".toList, "/Game/Maps/Test1.Test1".toList, false⟩,
      ⟨"Title".toList, "Evening News".toList, true⟩]) "Title".toList =
      some "Evening News".toList ∧
    getArg (renderArgs [⟨"VirtuCastMap".toList, "/Game/Maps/Test1.Test1".toList, false⟩,
      ⟨"Title".toList, "Evening News".toList, true⟩]) "VirtuCastFps".toList = none :=
  ⟨by decide,
   (getArg_roundtrip _ (by decide)).1
     ⟨"Title".toList, "Evening News".toList, true⟩ (by decide),
   (getArg_roundtrip _ (by decide)).2 "VirtuCastFps".toList (by decide) (by decide)⟩

end VirtuCast
